import Mathlib

/-!
Shallow embedding of the WLED_Music_Sync timed scene scheduler core:
the YAML timing loader (`load_timings_from_yaml` / `_parse_controller_entry`
in `src/wled_music_sync/config.py`), the data model (`src/wled_music_sync/models.py`),
the scheduler tick loop (`main_async` in `src/main.py`), the per-event
dispatcher (`SceneScheduler._dispatch_event` in `src/wled_music_sync/scheduler.py`)
and the device client (`WLEDController` in `src/wled_music_sync/controller.py`).

Python/YAML/JSON values are modelled by the inductive `Val`; Python floats
carrying timestamps are modelled by `ℚ` (the scheduler only compares them);
network calls are modelled by explicit response values (`Except Unit _`,
where `Except.error` stands for a raised-and-caught exception such as a
connection error or timeout), and the asyncio fan-out of the dispatcher by an
explicit list of per-unit completion times (`Option ℚ`, `none` = never
completes within any bound).
-/

namespace WledSync

/-- A Python / YAML / JSON value: `None`, bool, int, float (as `ℚ`),
string, list, or dict (an insertion-ordered map, keys are strings). -/
inductive Val : Type where
  | vnull : Val
  | vbool : Bool → Val
  | vint : Int → Val
  | vrat : ℚ → Val
  | vstr : String → Val
  | vlist : List Val → Val
  | vdict : List (String × Val) → Val

/-- Python `d.get(k)` returning `none` when absent (first binding wins,
as dict keys are unique). -/
def lookupKey (k : String) : List (String × Val) → Option Val
  | [] => none
  | (k₁, v) :: rest => if k₁ = k then some v else lookupKey k rest

/-- Python `del d[k]` on an insertion-ordered dict: remove the (unique)
binding of `k`, keeping the order of the others. -/
def eraseKey (k : String) : List (String × Val) → List (String × Val)
  | [] => []
  | (k₁, v) :: rest => if k₁ = k then rest else (k₁, v) :: eraseKey k rest

/-- `models.ControllerScene`: a scene/preset definition bound to one
controller id.  The id is kept as a `Val` because the group branch of the
loader copies ids straight out of the YAML list. -/
structure ControllerScene : Type where
  controller_id : Val
  scene : Val

/-- `models.TimedEvent`: one timepoint with its per-controller scenes.
`__lt__` compares only `time_s`. -/
structure TimedEvent : Type where
  time_s : ℚ
  controller_scenes : List ControllerScene

/-- `_parse_controller_entry` from `config.load_timings_from_yaml`:
group entries (`ctrl_key == "group"` and a dict value) expand to one
`ControllerScene` per listed controller id, with the `controllers` key
removed from the copied scene; malformed groups contribute zero scenes;
any other entry yields a single `ControllerScene`, unwrapping a `scene`
key when the value is a dict that has one. -/
def parseControllerEntry (ctrlKey : String) (sceneDef : Val) : List ControllerScene :=
  match sceneDef with
  | Val.vdict d =>
    if ctrlKey = "group" then
      match lookupKey "controllers" d with
      | none => []
      | some (Val.vlist ids) =>
        ids.map (fun i => ControllerScene.mk i (Val.vdict (eraseKey "controllers" d)))
      | some _ => []
    else
      match lookupKey "scene" d with
      | some s => [ControllerScene.mk (Val.vstr ctrlKey) s]
      | none => [ControllerScene.mk (Val.vstr ctrlKey) (Val.vdict d)]
  | _ => [ControllerScene.mk (Val.vstr ctrlKey) sceneDef]

/-- The comparison `TimedEvent.__lt__` induces for Python's stable `sorted`:
an element stays before another iff sorting needs no swap, i.e. `time_s ≤ time_s`. -/
def eventLE (a b : TimedEvent) : Bool := decide (a.time_s ≤ b.time_s)

/-- `sorted(timed_list)` in `load_timings_from_yaml`: a stable sort
comparing only `time_s`. -/
def sortTimeline (l : List TimedEvent) : List TimedEvent := l.mergeSort eventLE

/-- One raw YAML event: its `time` value and its `controllers` map. -/
structure RawEvent : Type where
  time : ℚ
  controllers : List (String × Val)

/-- The per-event body of `load_timings_from_yaml`: parse every controller
entry (in map order) and collect the scenes into one `TimedEvent`. -/
def parseEvent (ev : RawEvent) : TimedEvent :=
  TimedEvent.mk ev.time (ev.controllers.flatMap (fun p => parseControllerEntry p.1 p.2))

/-- The per-song body of `load_timings_from_yaml`: build the `TimedEvent`
list in declaration order, then stably sort it by `time_s`. -/
def loadSong (evs : List RawEvent) : List TimedEvent :=
  sortTimeline (evs.map parseEvent)

/-! ### Scheduler tick loop (`main_async` in `src/main.py`)

State per tick: the (sorted) event list, the cursor `current_event_index`,
`last_time : Option ℚ` (`None` on the first tick after a show starts) and the
freshly sampled `current_time`.  A tick returns the list of events it
dispatches (in dispatch order) together with the new cursor. -/

/-- Whether an event is due at or before time `t`
(the loop guard `events[current_event_index].time_s <= current_time`). -/
def dueAt (t : ℚ) (e : TimedEvent) : Bool := decide (e.time_s ≤ t)

/-- The count of events whose `time_s` is at most `t`. -/
def countLE (events : List TimedEvent) (t : ℚ) : Nat :=
  (events.filter (dueAt t)).length

/-- The forward branch of the tick: starting at `cursor`, dispatch while the
cursor is in range and the event at the cursor is due, advancing the cursor
past each dispatched event. -/
def forwardDispatch (events : List TimedEvent) (cursor : Nat) (t : ℚ) :
    List TimedEvent × Nat :=
  let ds := (events.drop cursor).takeWhile (dueAt t)
  (ds, cursor + ds.length)

/-- The backward branch of the tick (`current_time < last_time`): reset the
cursor to 0 and advance it over every event due at `current_time`; nothing
is dispatched. -/
def backwardSeek (events : List TimedEvent) (t : ℚ) : Nat :=
  (events.takeWhile (dueAt t)).length

/-- One scheduler tick of the playback loop in `main_async`: forward when
time moved forward (or on the first tick), backward-seek when it moved
backward, otherwise do nothing.  Returns (dispatched events, new cursor);
the loop then sets `last_time = current_time`. -/
def tick (events : List TimedEvent) (cursor : Nat) (lastTime : Option ℚ)
    (currentTime : ℚ) : List TimedEvent × Nat :=
  match lastTime with
  | none => forwardDispatch events cursor currentTime
  | some t0 =>
    if currentTime > t0 then forwardDispatch events cursor currentTime
    else if currentTime < t0 then ([], backwardSeek events currentTime)
    else ([], cursor)

/-! ### Dispatcher (`SceneScheduler._dispatch_event` in
`src/wled_music_sync/scheduler.py`)

Each resolved (scene, endpoint) unit is modelled by the time (after
invocation) at which its `apply_scene` task completes, `none` meaning it
never completes within any bound.  `asyncio.wait(tasks, timeout=τ)` returns
`(done, pending)` where `done` are the tasks that completed within `τ`; it
returns as soon as all tasks are done, and at `τ` at the latest.  Cancelling
the pending tasks and awaiting their `CancelledError` takes no further
model time. -/

/-- The shared deadline of the fan-out wait: `timeout=0.5` in
`_dispatch_event` (written `1/2` as a rational). -/
def dispatchTimeout : ℚ := 1/2

/-- Whether a unit with the given completion profile finishes within `τ`. -/
def completesBy (c : Option ℚ) (τ : ℚ) : Bool :=
  match c with
  | some t => decide (t ≤ τ)
  | none => false

/-- The `done` set of `asyncio.wait(tasks, timeout=τ)`: the units that
completed within the shared deadline. -/
def doneCount (cs : List (Option ℚ)) (τ : ℚ) : Nat :=
  (cs.filter (fun c => completesBy c τ)).length

/-- The `pending` set of `asyncio.wait(tasks, timeout=τ)`: the units still
outstanding at the deadline. -/
def pendingCount (cs : List (Option ℚ)) (τ : ℚ) : Nat :=
  (cs.filter (fun c => !completesBy c τ)).length

/-- The time at which `asyncio.wait(tasks, timeout=τ)` returns control:
when every task completes within `τ`, the latest completion time;
otherwise the deadline `τ` itself. -/
def waitElapsed (cs : List (Option ℚ)) (τ : ℚ) : ℚ :=
  if cs.all (fun c => completesBy c τ) then
    cs.foldr (fun c acc => match c with | some t => max t acc | none => acc) 0
  else τ

/-- The counts `_dispatch_event` logs after its fan-out wait:
`success_count = len(done)` and `timeout_count = len(pending)`. -/
def dispatchReport (cs : List (Option ℚ)) : Nat × Nat :=
  (doneCount cs dispatchTimeout, pendingCount cs dispatchTimeout)

/-! ### Device client (`WLEDController` in `src/wled_music_sync/controller.py`)

A device call is modelled by the responses the device would give:
`postStatus` is the outcome of `POST {base}/json` (`Except.error` = a raised
and caught exception: connection error, timeout, ...), `presetsCatalog` the
outcome of `GET {base}/presets` parsed as a JSON object.  `apply_scene`
returns the list of write bodies it posts (in order) together with its
boolean result; all exception paths are caught inside and mapped to
`false`, which the total Lean function reflects. -/

/-- `WLEDController.WLED_HTTP_TIMEOUT = 0.5` (total budget of one HTTP call). -/
def WLED_HTTP_TIMEOUT : ℚ := 1/2

/-- `WLEDController.WLED_CONNECT_TIMEOUT = 0.2` (connection establishment). -/
def WLED_CONNECT_TIMEOUT : ℚ := 1/5

/-- `WLEDController.WLED_READ_TIMEOUT = 0.3` (response read). -/
def WLED_READ_TIMEOUT : ℚ := 3/10

/-- Responses of one device for the duration of one `apply_scene` call. -/
structure DeviceResponses : Type where
  postStatus : Except Unit Nat
  presetsCatalog : Except Unit (List (String × Val))

/-- `200 <= resp.status < 300`; an exception (connection error, timeout)
never counts as success. -/
def is2xx (r : Except Unit Nat) : Bool :=
  match r with
  | Except.ok s => decide (200 ≤ s ∧ s < 300)
  | Except.error _ => false

/-- The wire body `{"ps": n, "on": True}` recalling preset `n`. -/
def presetPayload (n : Int) : Val :=
  Val.vdict [("ps", Val.vint n), ("on", Val.vbool true)]

/-- Python `val.get("n")` inside the catalog scan: `None` when the key is
absent; raises (`Except.error`) when `val` is not a dict. -/
def valGetN (v : Val) : Except Unit Val :=
  match v with
  | Val.vdict d => Except.ok ((lookupKey "n" d).getD Val.vnull)
  | _ => Except.error ()

mutual

/-- Python `==` on our value universe: numbers (`bool`, `int`, `float`)
compare by numeric value, strings and `None` by themselves, lists
elementwise, dicts binding-wise (Python compares dicts without regard to
insertion order, but equal loaders produce equal orders, so the ordered
comparison is used here), and values of unrelated types are unequal. -/
def pyEq : Val → Val → Bool
  | Val.vnull, Val.vnull => true
  | Val.vbool a, Val.vbool b => a == b
  | Val.vbool a, Val.vint n => decide ((if a then (1 : Int) else 0) = n)
  | Val.vbool a, Val.vrat q => decide ((if a then (1 : ℚ) else 0) = q)
  | Val.vint n, Val.vbool b => decide (n = (if b then (1 : Int) else 0))
  | Val.vint n, Val.vint m => n == m
  | Val.vint n, Val.vrat q => decide ((n : ℚ) = q)
  | Val.vrat q, Val.vbool b => decide (q = (if b then (1 : ℚ) else 0))
  | Val.vrat q, Val.vint n => decide (q = (n : ℚ))
  | Val.vrat q, Val.vrat r => q == r
  | Val.vstr s, Val.vstr t => s == t
  | Val.vlist xs, Val.vlist ys => pyEqList xs ys
  | Val.vdict xs, Val.vdict ys => pyEqDict xs ys
  | _, _ => false

/-- Python `==` on lists: equal length, elementwise equal. -/
def pyEqList : List Val → List Val → Bool
  | [], [] => true
  | x :: xs, y :: ys => pyEq x y && pyEqList xs ys
  | _, _ => false

/-- Python `==` on dicts, binding-wise. -/
def pyEqDict : List (String × Val) → List (String × Val) → Bool
  | [], [] => true
  | (k₁, v₁) :: xs, (k₂, v₂) :: ys => k₁ == k₂ && pyEq v₁ v₂ && pyEqDict xs ys
  | _, _ => false

end

/-- The generator `next((pid for pid, val in data.items() if val.get("n") ==
name), None)`: scan the catalog in order, stop at the first entry whose
name field equals the requested name; a non-dict value reached before a
match raises. -/
def findMatch (name : Val) : List (String × Val) → Except Unit (Option String)
  | [] => Except.ok none
  | (pid, v) :: rest =>
    match valGetN v with
    | Except.error _ => Except.error ()
    | Except.ok g =>
      if pyEq g name then Except.ok (some pid) else findMatch name rest

/-- The decimal value of one digit character, `none` for a non-digit. -/
def digitVal (c : Char) : Option Nat :=
  if 48 ≤ c.toNat ∧ c.toNat ≤ 57 then some (c.toNat - 48) else none

/-- Parse a non-empty run of decimal digits left to right. -/
def parseDigits (acc : Nat) : List Char → Option Nat
  | [] => some acc
  | c :: cs =>
    match digitVal c with
    | some d => parseDigits (acc * 10 + d) cs
    | none => none

/-- Python `int(s)` on a string: the parsed integer (an optional minus sign
followed by decimal digits), or a raised `ValueError` (`none`) when the
string is not an integer literal.  Python's tolerance for surrounding
whitespace, a plus sign and underscores is not modelled. -/
def pyInt (s : String) : Option Int :=
  match s.data with
  | [] => none
  | '-' :: cs =>
    match cs with
    | [] => none
    | _ => (parseDigits 0 cs).map (fun n => -(n : Int))
  | cs => (parseDigits 0 cs).map (fun n => (n : Int))

/-- `WLEDController._apply_preset_by_name`: on dry-run, log and succeed;
otherwise fetch the preset catalog, scan it for the name, fail without a
write when the lookup raises, finds nothing, or yields a falsy/non-numeric
id; otherwise post `{"ps": id, "on": True}` and succeed on a 2xx response.
Returns (write bodies posted, boolean result). -/
def applyPresetByName (name : Val) (dryRun : Bool) (env : DeviceResponses) :
    List Val × Bool :=
  if dryRun then ([], true)
  else
    match env.presetsCatalog with
    | Except.error _ => ([], false)
    | Except.ok data =>
      match findMatch name data with
      | Except.error _ => ([], false)
      | Except.ok none => ([], false)
      | Except.ok (some pid) =>
        if pid = "" then ([], false)
        else
          match pyInt pid with
          | none => ([], false)
          | some n => ([presetPayload n], is2xx env.postStatus)

/-- `WLEDController.apply_scene`: a scene with a `preset` key posts
`{"ps": <value>, "on": True}`; a scene with a `preset_name` key delegates to
the name lookup; any other scene is posted verbatim.  On dry-run nothing is
posted and the call succeeds.  Returns (write bodies posted, boolean
result); every exception path is caught and yields `false`. -/
def applyScene (scene : List (String × Val)) (dryRun : Bool)
    (env : DeviceResponses) : List Val × Bool :=
  match lookupKey "preset" scene with
  | some v =>
    if dryRun then ([], true)
    else ([Val.vdict [("ps", v), ("on", Val.vbool true)]], is2xx env.postStatus)
  | none =>
    match lookupKey "preset_name" scene with
    | some nm => applyPresetByName nm dryRun env
    | none =>
      if dryRun then ([], true)
      else ([Val.vdict scene], is2xx env.postStatus)

/-! ### Shutdown (`WLEDController.close`, `SceneScheduler.close`)

A controller's lazily created session is `some ()` once `_get_session` has
run and `none` before first use and after `close`.  `controllerClose`
returns the new session state and whether a session was actually released. -/

/-- `WLEDController.close`: release the session if one was created
(and mark the slot empty); do nothing otherwise. -/
def controllerClose (s : Option Unit) : Option Unit × Bool :=
  match s with
  | some _ => (none, true)
  | none => (none, false)

/-- `SceneScheduler.close` of `wled_music_sync/scheduler.py`: for every
controller in every registry entry whose `_internal_session` is truthy, run
`controller.close()`; gather the results.  Returns the new session states
and the number of sessions released. -/
def schedulerClose (regs : List (List (Option Unit))) :
    List (List (Option Unit)) × Nat :=
  (regs.map (fun l => l.map (fun s => if s.isSome then (controllerClose s).1 else s)),
   (regs.map (fun l => (l.filter (fun s => s.isSome)).length)).sum)

/-- `SceneScheduler.close` of the `music_sync.py` monolith:
`for c in self.controllers.values(): await c.close()`.  The registry maps
controller ids to `List[WLEDController]` (its annotation and its only
construction site), so each `c` is a Python list, which has no `close`
method: the first iteration over a non-empty registry raises
`AttributeError` (`Except.error`) before any session is released; only an
empty registry completes, releasing nothing. -/
def schedulerCloseLegacy (regs : List (List (Option Unit))) :
    Except Unit (List (List (Option Unit)) × Nat) :=
  match regs with
  | [] => Except.ok ([], 0)
  | _ :: _ => Except.error ()

/-- The scene a non-group controller entry contributes: the value of a
`scene` key when the entry is a dict that has one, the entry itself
otherwise (the regular branch of `_parse_controller_entry`). -/
def unwrapScene (sd : Val) : Val :=
  match sd with
  | Val.vdict d =>
    match lookupKey "scene" d with
    | some s => s
    | none => Val.vdict d
  | _ => sd

/-- A timeline sorted ascending by `time_s`. -/
def timeSorted (l : List TimedEvent) : Prop :=
  List.Pairwise (fun a b => a.time_s ≤ b.time_s) l

/-- The predicate selecting the events due on a forward tick from `t0` to `t1`. -/
def dueBetween (t0 t1 : ℚ) (e : TimedEvent) : Bool :=
  decide (t0 < e.time_s ∧ e.time_s ≤ t1)

/-- Whether one preset-catalog entry is a dict whose name field (`"n"`)
equals the requested name under Python equality. -/
def entryNameMatches (name : Val) (p : String × Val) : Bool :=
  match p.2 with
  | Val.vdict d => pyEq ((lookupKey "n" d).getD Val.vnull) name
  | _ => false

/-! ## Supporting lemmas -/

lemma takeWhile_eq_filter_of_timeSorted {t : ℚ} :
    ∀ {l : List TimedEvent}, timeSorted l → l.takeWhile (dueAt t) = l.filter (dueAt t) := by
  intro l h
  induction l with
  | nil => rfl
  | cons e es ih =>
    rcases List.pairwise_cons.1 h with ⟨h1, h2⟩
    by_cases hd : dueAt t e
    · simp only [List.takeWhile_cons, List.filter_cons, hd, if_pos, ih h2]
    · simp only [List.takeWhile_cons, List.filter_cons, hd, if_neg, Bool.false_eq_true,
        ite_false, cond_false]
      symm
      rw [List.filter_eq_nil_iff]
      intro a ha hdue
      apply hd
      simp only [dueAt, decide_eq_true_eq] at hdue ⊢
      exact le_trans (h1 a ha) hdue

lemma lt_of_mem_dropWhile_timeSorted {t : ℚ} :
    ∀ {l : List TimedEvent}, timeSorted l →
      ∀ x ∈ l.dropWhile (dueAt t), t < x.time_s := by
  intro l h
  induction l with
  | nil => intro x hx; simp [List.dropWhile] at hx
  | cons e es ih =>
    rcases List.pairwise_cons.1 h with ⟨h1, h2⟩
    intro x hx
    by_cases hd : dueAt t e
    · rw [List.dropWhile_cons_of_pos hd] at hx
      exact ih h2 x hx
    · rw [List.dropWhile_cons_of_neg hd] at hx
      simp only [dueAt, decide_eq_true_eq, not_le] at hd
      rcases List.mem_cons.1 hx with hx | hx
      · rw [hx]; exact hd
      · exact lt_of_lt_of_le hd (h1 x hx)

lemma countLE_eq_length_takeWhile {l : List TimedEvent} {t : ℚ} (h : timeSorted l) :
    countLE l t = (l.takeWhile (dueAt t)).length := by
  rw [countLE, takeWhile_eq_filter_of_timeSorted h]

lemma drop_countLE {l : List TimedEvent} {t : ℚ} (h : timeSorted l) :
    l.drop (countLE l t) = l.dropWhile (dueAt t) := by
  rw [countLE_eq_length_takeWhile h]
  nth_rewrite 2 [← List.takeWhile_append_dropWhile (dueAt t) l]
  exact List.drop_left' rfl

lemma forward_dispatched_eq_filter {l : List TimedEvent} {t0 t1 : ℚ}
    (h : timeSorted l) :
    (l.drop (countLE l t0)).takeWhile (dueAt t1) = l.filter (dueBetween t0 t1) := by
  rw [drop_countLE h]
  have hsub : timeSorted (l.dropWhile (dueAt t0)) :=
    List.Pairwise.sublist (List.dropWhile_sublist _) h
  rw [takeWhile_eq_filter_of_timeSorted hsub]
  conv_rhs => rw [← List.takeWhile_append_dropWhile (dueAt t0) l]
  rw [List.filter_append]
  have h1 : (l.takeWhile (dueAt t0)).filter (dueBetween t0 t1) = [] := by
    rw [List.filter_eq_nil_iff]
    intro a ha hq
    have hp := List.mem_takeWhile_imp ha
    simp only [dueAt, decide_eq_true_eq] at hp
    simp only [dueBetween, decide_eq_true_eq] at hq
    exact absurd hp (not_le.2 hq.1)
  have h2 : (l.dropWhile (dueAt t0)).filter (dueBetween t0 t1) =
      (l.dropWhile (dueAt t0)).filter (dueAt t1) := by
    apply List.filter_congr
    intro a ha
    have hgt := lt_of_mem_dropWhile_timeSorted h a ha
    simp only [dueBetween, dueAt, decide_eq_true_eq, decide_eq_decide]
    exact and_iff_right hgt
  rw [h1, h2, List.nil_append]

lemma countLE_mono_split {l : List TimedEvent} {t0 t1 : ℚ}
    (h : timeSorted l) (h01 : t0 ≤ t1) :
    countLE l t1 = countLE l t0 + (l.filter (dueBetween t0 t1)).length := by
  have hfull : l.filter (dueAt t1) =
      l.takeWhile (dueAt t0) ++ l.filter (dueBetween t0 t1) := by
    conv_lhs => rw [← List.takeWhile_append_dropWhile (dueAt t0) l]
    rw [List.filter_append]
    have h1 : (l.takeWhile (dueAt t0)).filter (dueAt t1) = l.takeWhile (dueAt t0) := by
      rw [List.filter_eq_self]
      intro a ha
      have hp := List.mem_takeWhile_imp ha
      simp only [dueAt, decide_eq_true_eq] at hp ⊢
      exact le_trans hp h01
    have h2 : (l.dropWhile (dueAt t0)).filter (dueAt t1) =
        l.filter (dueBetween t0 t1) := by
      rw [← forward_dispatched_eq_filter h, drop_countLE h,
        takeWhile_eq_filter_of_timeSorted
          (List.Pairwise.sublist (List.dropWhile_sublist _) h)]
    rw [h1, h2]
  rw [countLE, hfull, List.length_append, countLE_eq_length_takeWhile h]

/-- The scheduler loop invariant: whatever branch a tick takes, the new
cursor counts exactly the events at or before the new `last_time`. -/
lemma tick_cursor_invariant {l : List TimedEvent} {t0 t1 : ℚ}
    (h : timeSorted l) :
    (tick l (countLE l t0) (some t0) t1).2 = countLE l t1 := by
  rcases lt_trichotomy t0 t1 with hlt | heq | hgt
  · rw [tick, if_pos hlt, forwardDispatch, forward_dispatched_eq_filter h,
      countLE_mono_split h (le_of_lt hlt)]
  · rw [tick, if_neg (by rw [heq]; exact lt_irrefl t1), if_neg (by rw [heq]; exact lt_irrefl t1), heq]
  · rw [tick, if_neg (not_lt.2 (le_of_lt hgt)), if_pos hgt, backwardSeek,
      countLE_eq_length_takeWhile h]

/-! ## Claims -/

/-- C1: on a tick whose timeline is sorted ascending by `time_s`, whose
cursor agrees with `last_time = t0` (it counts the events at or before
`t0`), and whose clock reads `t1 > t0`, the scheduler dispatches exactly
the events with `time_s` in the half-open interval `(t0, t1]`, in ascending
`time_s` order (the filter keeps the sorted timeline's order, each event
once), and advances the cursor past each dispatched event, leaving it at
the count of events at or before `t1`. -/
theorem forward_tick_dispatches_exactly_due {l : List TimedEvent}
    {cursor : Nat} {t0 t1 : ℚ} (h : timeSorted l)
    (hc : cursor = countLE l t0) (h01 : t0 < t1) :
    (tick l cursor (some t0) t1).1 = l.filter (dueBetween t0 t1) ∧
    (tick l cursor (some t0) t1).2 = countLE l t1 ∧
    timeSorted (tick l cursor (some t0) t1).1 := by
  subst hc
  have h1 : (tick l (countLE l t0) (some t0) t1).1 = l.filter (dueBetween t0 t1) := by
    rw [tick, if_pos h01, forwardDispatch, forward_dispatched_eq_filter h]
  refine ⟨h1, tick_cursor_invariant h, ?_⟩
  rw [h1]
  exact List.Pairwise.sublist (List.filter_sublist _) h

/-- Witness for C1: timeline with events at 1, 2, 3 seconds, `last_time = 1`
(cursor 1), clock reads `5/2`: exactly the events at 2 and 3 are dispatched
and the cursor moves to 3. -/
theorem forward_tick_dispatches_exactly_due_witness :
    timeSorted [TimedEvent.mk 1 [], TimedEvent.mk 2 [], TimedEvent.mk 3 []] ∧
    (1 : Nat) = countLE [TimedEvent.mk 1 [], TimedEvent.mk 2 [], TimedEvent.mk 3 []] 1 ∧
    (1 : ℚ) < 5/2 ∧
    ((tick [TimedEvent.mk 1 [], TimedEvent.mk 2 [], TimedEvent.mk 3 []] 1 (some 1) (5/2)).1 =
      [TimedEvent.mk 1 [], TimedEvent.mk 2 [], TimedEvent.mk 3 []].filter (dueBetween 1 (5/2)) ∧
    (tick [TimedEvent.mk 1 [], TimedEvent.mk 2 [], TimedEvent.mk 3 []] 1 (some 1) (5/2)).2 =
      countLE [TimedEvent.mk 1 [], TimedEvent.mk 2 [], TimedEvent.mk 3 []] (5/2) ∧
    timeSorted (tick [TimedEvent.mk 1 [], TimedEvent.mk 2 [], TimedEvent.mk 3 []] 1 (some 1) (5/2)).1) := by
  refine ⟨?_, ?_, ?_, ?_⟩
  · unfold timeSorted; decide
  · decide
  · norm_num
  · exact forward_tick_dispatches_exactly_due (by unfold timeSorted; decide) (by decide) (by norm_num)

/-- C3: on a tick whose timeline is sorted and whose clock reads strictly
less than `last_time` (a backward seek), the scheduler dispatches nothing
and recomputes the cursor to the count of events whose `time_s` is at or
before the new clock value. -/
theorem backward_seek_recomputes_cursor_no_dispatch {l : List TimedEvent}
    {cursor : Nat} {t0 t1 : ℚ} (h : timeSorted l) (h10 : t1 < t0) :
    tick l cursor (some t0) t1 = ([], countLE l t1) := by
  rw [tick, if_neg (not_lt.2 (le_of_lt h10)), if_pos h10, backwardSeek,
    countLE_eq_length_takeWhile h]

/-- Witness for C3: timeline with events at 0 and 2 seconds, `last_time = 5/2`,
clock seeks back to 1: no dispatch, cursor recomputes to 1. -/
theorem backward_seek_recomputes_cursor_no_dispatch_witness :
    timeSorted [TimedEvent.mk 0 [], TimedEvent.mk 2 []] ∧
    (1 : ℚ) < 5/2 ∧
    tick [TimedEvent.mk 0 [], TimedEvent.mk 2 []] 2 (some (5/2)) 1 =
      ([], countLE [TimedEvent.mk 0 [], TimedEvent.mk 2 []] 1) := by
  refine ⟨?_, ?_, ?_⟩
  · unfold timeSorted; decide
  · norm_num
  · exact backward_seek_recomputes_cursor_no_dispatch (by unfold timeSorted; decide) (by norm_num)

lemma doneCount_add_pendingCount (cs : List (Option ℚ)) (τ : ℚ) :
    doneCount cs τ + pendingCount cs τ = cs.length := by
  induction cs with
  | nil => rfl
  | cons c cs ih =>
    by_cases h : completesBy c τ <;>
      simp only [doneCount, pendingCount, List.filter_cons, h, Bool.not_true, Bool.not_false,
        if_pos, if_neg, Bool.false_eq_true, ite_true, ite_false, List.length_cons,
        List.length] at ih ⊢ <;> omega

lemma foldr_max_le {cs : List (Option ℚ)} {τ : ℚ} (hτ : 0 ≤ τ)
    (hall : ∀ c ∈ cs, completesBy c τ = true) :
    cs.foldr (fun c acc => match c with | some t => max t acc | none => acc) 0 ≤ τ := by
  induction cs with
  | nil => simpa using hτ
  | cons c cs ih =>
    have hc := hall c (List.mem_cons_self c cs)
    have ihh := ih (fun x hx => hall x (List.mem_cons_of_mem c hx))
    cases c with
    | some t =>
      have ht : t ≤ τ := by simpa [completesBy] using hc
      simpa [List.foldr_cons] using max_le ht ihh
    | none => simpa [List.foldr_cons] using ihh

lemma waitElapsed_le (cs : List (Option ℚ)) {τ : ℚ} (hτ : 0 ≤ τ) :
    waitElapsed cs τ ≤ τ := by
  rw [waitElapsed]
  by_cases hall : cs.all (fun c => completesBy c τ) = true
  · rw [if_pos hall]
    exact foldr_max_le hτ (fun c hc => List.all_eq_true.1 hall c hc)
  · rw [if_neg hall]

/-- C2: a dispatch of an event with N resolved (scene, endpoint) units, of
which k do not complete within the shared deadline, reports N-k successes
(`len(done)`) and k timeouts (`len(pending)`), and its fan-out wait returns
control no later than the shared deadline after invocation. -/
theorem dispatch_reports_counts_and_meets_deadline (cs : List (Option ℚ))
    (N k : Nat) (hN : N = cs.length) (hk : k = pendingCount cs dispatchTimeout) :
    dispatchReport cs = (N - k, k) ∧
    waitElapsed cs dispatchTimeout ≤ dispatchTimeout := by
  subst hN
  subst hk
  refine ⟨?_, waitElapsed_le cs (by norm_num [dispatchTimeout])⟩
  rw [dispatchReport]
  have h := doneCount_add_pendingCount cs dispatchTimeout
  have h2 : doneCount cs dispatchTimeout = cs.length - pendingCount cs dispatchTimeout := by
    omega
  rw [h2]

/-- Witness for C2: four units, three completing at 0.1, 0.2, 0.3 seconds
and one never responding: the report is 3 successes and 1 timeout, and the
wait returns by the 0.5 second deadline. -/
theorem dispatch_reports_counts_and_meets_deadline_witness :
    (4 : Nat) = [some (1/10 : ℚ), some (1/5), some (3/10), none].length ∧
    (1 : Nat) = pendingCount [some (1/10 : ℚ), some (1/5), some (3/10), none] dispatchTimeout ∧
    (dispatchReport [some (1/10 : ℚ), some (1/5), some (3/10), none] = (4 - 1, 1) ∧
      waitElapsed [some (1/10 : ℚ), some (1/5), some (3/10), none] dispatchTimeout ≤
        dispatchTimeout) := by
  have hk : (1 : Nat) = pendingCount [some (1/10 : ℚ), some (1/5), some (3/10), none]
      dispatchTimeout := by
    norm_num [pendingCount, completesBy, dispatchTimeout, List.filter_cons]
  refine ⟨rfl, hk, ?_⟩
  exact dispatch_reports_counts_and_meets_deadline
    [some (1/10 : ℚ), some (1/5), some (3/10), none] 4 1 rfl hk

lemma eventLE_trans : ∀ (a b c : TimedEvent),
    eventLE a b → eventLE b c → eventLE a c := by
  intro a b c hab hbc
  simp only [eventLE, decide_eq_true_eq] at hab hbc ⊢
  exact le_trans hab hbc

lemma eventLE_total : ∀ (a b : TimedEvent), eventLE a b || eventLE b a := by
  intro a b
  simp only [eventLE, Bool.or_eq_true, decide_eq_true_eq]
  exact le_total a.time_s b.time_s

/-- C4: every timeline the YAML timing loader produces is sorted with
non-decreasing `time_s` (both pairwise and indexwise), and the sort is
stable over only the `time_s` key: for every time value, the sub-sequence of
events carrying it is exactly the sub-sequence in declaration order. -/
theorem loader_timeline_sorted_and_stable (evs : List RawEvent) :
    timeSorted (loadSong evs) ∧
    (∀ i : Nat, i + 1 < (loadSong evs).length →
      ((loadSong evs).getD i (TimedEvent.mk 0 [])).time_s ≤
        ((loadSong evs).getD (i + 1) (TimedEvent.mk 0 [])).time_s) ∧
    (∀ t : ℚ, (loadSong evs).filter (fun e => decide (e.time_s = t)) =
      (evs.map parseEvent).filter (fun e => decide (e.time_s = t))) := by
  have hs : timeSorted (loadSong evs) := by
    have h := List.sorted_mergeSort eventLE_trans eventLE_total (evs.map parseEvent)
    exact h.imp (fun hab => by simpa [eventLE] using hab)
  refine ⟨hs, ?_, ?_⟩
  · intro i hi
    have hi0 : i < (loadSong evs).length := Nat.lt_of_succ_lt hi
    rw [List.getD_eq_getElem _ _ hi0, List.getD_eq_getElem _ _ hi]
    exact List.pairwise_iff_getElem.1 hs i (i + 1) hi0 hi (Nat.lt_succ_self i)
  · intro t
    set p : TimedEvent → Bool := fun e => decide (e.time_s = t) with hp
    set c : List TimedEvent := (evs.map parseEvent).filter p with hc
    have hcmem : ∀ x ∈ c, p x = true := fun x hx => (List.mem_filter.1 hx).2
    have hcp : c.Pairwise (fun a b => eventLE a b = true) := by
      apply List.pairwise_of_forall_mem_list
      intro a ha b hb
      have ha' := hcmem a ha
      have hb' := hcmem b hb
      simp only [hp, decide_eq_true_eq] at ha' hb'
      simp [eventLE, ha', hb']
    have hsubl : List.Sublist c (loadSong evs) := by
      rw [loadSong, sortTimeline]
      exact List.sublist_mergeSort eventLE_trans eventLE_total hcp
        (List.filter_sublist _)
    have hperm : List.Perm ((loadSong evs).filter p) c := by
      rw [loadSong, sortTimeline, hc]
      exact (List.mergeSort_perm (evs.map parseEvent) eventLE).filter p
    have hsub2 : List.Sublist c ((loadSong evs).filter p) := by
      have h1 : c.filter p = c := List.filter_eq_self.2 hcmem
      have h2 := hsubl.filter p
      rwa [h1] at h2
    exact (hsub2.eq_of_length hperm.length_eq.symm).symm

/-- Witness for C4: two raw events declared at times 2 then 1: the loaded
timeline has its first event at or before its second. -/
theorem loader_timeline_sorted_and_stable_witness :
    0 + 1 < (loadSong [RawEvent.mk 2 [], RawEvent.mk 1 []]).length ∧
    ((loadSong [RawEvent.mk 2 [], RawEvent.mk 1 []]).getD 0 (TimedEvent.mk 0 [])).time_s ≤
      ((loadSong [RawEvent.mk 2 [], RawEvent.mk 1 []]).getD (0 + 1) (TimedEvent.mk 0 [])).time_s := by
  have hlen : 0 + 1 < (loadSong [RawEvent.mk 2 [], RawEvent.mk 1 []]).length := by
    simp [loadSong, sortTimeline]
  exact ⟨hlen, (loader_timeline_sorted_and_stable [RawEvent.mk 2 [], RawEvent.mk 1 []]).2.1 0 hlen⟩

/-- C5 counterexample: it is not the case that all three per-endpoint
limits are strictly smaller than the dispatcher's shared deadline: the
total call budget `WLED_HTTP_TIMEOUT = 0.5` equals the shared deadline
`timeout=0.5` of the fan-out wait. -/
theorem not_all_endpoint_limits_lt_shared_deadline :
    ¬ (WLED_HTTP_TIMEOUT < dispatchTimeout ∧ WLED_CONNECT_TIMEOUT < dispatchTimeout ∧
       WLED_READ_TIMEOUT < dispatchTimeout) := by
  norm_num [WLED_HTTP_TIMEOUT, WLED_CONNECT_TIMEOUT, WLED_READ_TIMEOUT, dispatchTimeout]

/-- C5 amended: the connection-establishment and response-read budgets are
strictly smaller than the dispatcher's shared deadline, while the total
call budget equals it (so no limit exceeds the deadline). -/
theorem endpoint_limits_vs_shared_deadline :
    WLED_CONNECT_TIMEOUT < dispatchTimeout ∧ WLED_READ_TIMEOUT < dispatchTimeout ∧
    WLED_HTTP_TIMEOUT = dispatchTimeout := by
  norm_num [WLED_HTTP_TIMEOUT, WLED_CONNECT_TIMEOUT, WLED_READ_TIMEOUT, dispatchTimeout]

/-- The packaged `wled_music_sync/scheduler.py` shutdown behaves as the
spec intends: after `SceneScheduler.close` every controller's session slot
is empty, running it again releases nothing and changes nothing, and a
single endpoint's `close` empties its slot and is safe to repeat or to
call when no session was ever opened. -/
theorem close_releases_all_sessions_and_is_idempotent
    (regs : List (List (Option Unit))) (s : Option Unit) :
    (∀ l ∈ (schedulerClose regs).1, ∀ x ∈ l, x = none) ∧
    schedulerClose (schedulerClose regs).1 = ((schedulerClose regs).1, 0) ∧
    (controllerClose s).1 = none ∧
    controllerClose (controllerClose s).1 = (none, false) := by
  have hg : ∀ x : Option Unit, (if x.isSome then (controllerClose x).1 else x) = none := by
    intro x; cases x <;> rfl
  refine ⟨?_, ?_, ?_, ?_⟩
  · intro l hl x hx
    simp only [schedulerClose, List.mem_map] at hl
    obtain ⟨l₀, _, rfl⟩ := hl
    simp only [List.mem_map] at hx
    obtain ⟨y, _, rfl⟩ := hx
    exact hg y
  · simp only [schedulerClose, Prod.mk.injEq, List.map_map]
    constructor
    · apply List.map_congr_left
      intro l _
      simp only [Function.comp_apply]
      rw [List.map_map]
      apply List.map_congr_left
      intro x _
      simp only [Function.comp_apply, hg]
    · apply List.sum_eq_zero
      intro n hn
      simp only [List.map_map, List.mem_map, Function.comp_apply] at hn
      obtain ⟨l₀, _, rfl⟩ := hn
      have : (l₀.map (fun x => if x.isSome then (controllerClose x).1 else x)).filter
          (fun x => x.isSome) = [] := by
        rw [List.filter_eq_nil_iff]
        intro a ha
        simp only [List.mem_map] at ha
        obtain ⟨y, _, rfl⟩ := ha
        rw [hg y]
        simp
      rw [this]
      rfl
  · cases s <;> rfl
  · cases s <;> rfl

/-- C9: the claim fails on the cited `music_sync.py` implementation of
`SceneScheduler.close`: with one controller holding a created session, the
close loop awaits `.close()` on the registry's list value, raising
`AttributeError` (modelled as `Except.error`) and releasing no session —
contradicting "releases every session that was created and never raises";
only the empty registry completes, releasing nothing.  The packaged
`wled_music_sync/scheduler.py` implementation matches the claim, so the
claim is the intent and the monolith's close is the slip. -/
theorem legacy_scheduler_close_raises_on_open_session :
    schedulerCloseLegacy [[some ()]] = Except.error () ∧
    schedulerCloseLegacy [] = Except.ok ([], 0) :=
  ⟨rfl, rfl⟩

/-- C6: a group entry listing K distinct controller ids expands to exactly
K `ControllerScene`s, each carrying an identical copy of the remaining
directive fields with the `controllers` key removed, and whose controller
ids are exactly the K listed (distinct) ids, in order. -/
theorem group_expansion_one_scene_per_listed_id
    (d : List (String × Val)) (ids : List Val)
    (hc : lookupKey "controllers" d = some (Val.vlist ids)) (hnd : ids.Nodup) :
    (parseControllerEntry "group" (Val.vdict d)).length = ids.length ∧
    (∀ cs ∈ parseControllerEntry "group" (Val.vdict d),
      cs.scene = Val.vdict (eraseKey "controllers" d)) ∧
    (parseControllerEntry "group" (Val.vdict d)).map ControllerScene.controller_id = ids ∧
    ((parseControllerEntry "group" (Val.vdict d)).map ControllerScene.controller_id).Nodup := by
  have hpe : parseControllerEntry "group" (Val.vdict d) =
      ids.map (fun i => ControllerScene.mk i (Val.vdict (eraseKey "controllers" d))) := by
    simp [parseControllerEntry, hc]
  have hid : (parseControllerEntry "group" (Val.vdict d)).map
      ControllerScene.controller_id = ids := by
    rw [hpe, List.map_map]
    rw [show (ControllerScene.controller_id ∘
      fun i => ControllerScene.mk i (Val.vdict (eraseKey "controllers" d))) = id from rfl]
    exact List.map_id ids
  refine ⟨?_, ?_, hid, ?_⟩
  · rw [hpe, List.length_map]
  · intro cs hcs
    rw [hpe] at hcs
    obtain ⟨i, _, rfl⟩ := List.mem_map.1 hcs
    rfl
  · rw [hid]
    exact hnd

/-- Witness for C6: a group over controllers `a` and `b` with one extra
directive field expands to two scenes with ids `a`, `b` and the
`controllers`-less scene copied into each. -/
theorem group_expansion_one_scene_per_listed_id_witness :
    lookupKey "controllers"
        [("controllers", Val.vlist [Val.vstr "a", Val.vstr "b"]), ("fx", Val.vint 1)] =
      some (Val.vlist [Val.vstr "a", Val.vstr "b"]) ∧
    ([Val.vstr "a", Val.vstr "b"] : List Val).Nodup ∧
    ((parseControllerEntry "group"
        (Val.vdict [("controllers", Val.vlist [Val.vstr "a", Val.vstr "b"]),
          ("fx", Val.vint 1)])).length = ([Val.vstr "a", Val.vstr "b"] : List Val).length ∧
      (∀ cs ∈ parseControllerEntry "group"
          (Val.vdict [("controllers", Val.vlist [Val.vstr "a", Val.vstr "b"]),
            ("fx", Val.vint 1)]),
        cs.scene = Val.vdict (eraseKey "controllers"
          [("controllers", Val.vlist [Val.vstr "a", Val.vstr "b"]), ("fx", Val.vint 1)])) ∧
      (parseControllerEntry "group"
          (Val.vdict [("controllers", Val.vlist [Val.vstr "a", Val.vstr "b"]),
            ("fx", Val.vint 1)])).map ControllerScene.controller_id =
        [Val.vstr "a", Val.vstr "b"] ∧
      ((parseControllerEntry "group"
          (Val.vdict [("controllers", Val.vlist [Val.vstr "a", Val.vstr "b"]),
            ("fx", Val.vint 1)])).map ControllerScene.controller_id).Nodup) := by
  have hnd : ([Val.vstr "a", Val.vstr "b"] : List Val).Nodup := by
    simp
  exact ⟨rfl, hnd,
    group_expansion_one_scene_per_listed_id
      [("controllers", Val.vlist [Val.vstr "a", Val.vstr "b"]), ("fx", Val.vint 1)]
      [Val.vstr "a", Val.vstr "b"] rfl hnd⟩

/-- C10 counterexample: a non-group entry whose dict contains both a
`controllers` list and a `scene` key is indeed not expanded, but its scene
does not retain the entry's fields: the loader unwraps the `scene` key, so
the resulting scene is `{"fx": 5}` rather than the entry itself. -/
theorem nongroup_entry_scene_key_not_retained :
    parseControllerEntry "solo"
        (Val.vdict [("controllers", Val.vlist [Val.vstr "a"]),
          ("scene", Val.vdict [("fx", Val.vint 5)])]) =
      [ControllerScene.mk (Val.vstr "solo") (Val.vdict [("fx", Val.vint 5)])] ∧
    Val.vdict [("fx", Val.vint 5)] ≠
      Val.vdict [("controllers", Val.vlist [Val.vstr "a"]),
        ("scene", Val.vdict [("fx", Val.vint 5)])] := by
  constructor
  · rfl
  · simp

/-- C10 amended: group expansion happens only for the key `"group"` with a
dict value; any other entry (different key, or a non-dict value) produces a
single `ControllerScene` whose controller id is that key and whose scene is
the entry unchanged — except that a dict entry containing a `scene` key is
unwrapped to that key's value (`unwrapScene`). -/
theorem nongroup_entry_single_scene (key : String) (sd : Val)
    (h : key ≠ "group" ∨ ∀ d, sd ≠ Val.vdict d) :
    parseControllerEntry key sd = [ControllerScene.mk (Val.vstr key) (unwrapScene sd)] := by
  cases sd with
  | vdict d =>
    have hk : key ≠ "group" := by
      rcases h with h | h
      · exact h
      · exact absurd rfl (h d)
    cases hls : lookupKey "scene" d with
    | none => simp [parseControllerEntry, unwrapScene, hk, hls]
    | some s => simp [parseControllerEntry, unwrapScene, hk, hls]
  | vnull => rfl
  | vbool b => rfl
  | vint n => rfl
  | vrat q => rfl
  | vstr s => rfl
  | vlist xs => rfl

/-- Witness for C10 (amended): the entry under key `"solo"` with a
`controllers` list and a nested `scene` key yields one scene, the value of
its `scene` key. -/
theorem nongroup_entry_single_scene_witness :
    ((("solo" : String) ≠ "group" ∨ ∀ d,
        Val.vdict [("controllers", Val.vlist [Val.vstr "a"]),
          ("scene", Val.vdict [("fx", Val.vint 5)])] ≠ Val.vdict d) ∧
      parseControllerEntry "solo"
          (Val.vdict [("controllers", Val.vlist [Val.vstr "a"]),
            ("scene", Val.vdict [("fx", Val.vint 5)])]) =
        [ControllerScene.mk (Val.vstr "solo")
          (unwrapScene (Val.vdict [("controllers", Val.vlist [Val.vstr "a"]),
            ("scene", Val.vdict [("fx", Val.vint 5)])]))]) := by
  have hk : (("solo" : String) ≠ "group" ∨ ∀ d,
      Val.vdict [("controllers", Val.vlist [Val.vstr "a"]),
        ("scene", Val.vdict [("fx", Val.vint 5)])] ≠ Val.vdict d) := by
    left
    decide
  exact ⟨hk, nongroup_entry_single_scene "solo" _ hk⟩

lemma findMatch_spec (name : Val) :
    ∀ (cat : List (String × Val)),
      (∀ p ∈ cat, ∃ d, (p : String × Val).2 = Val.vdict d) →
      ((findMatch name cat = Except.ok none ∧
          ∀ p ∈ cat, entryNameMatches name p = false) ∨
       (∃ p ∈ cat, entryNameMatches name p = true ∧
          findMatch name cat = Except.ok (some (p : String × Val).1))) := by
  intro cat
  induction cat with
  | nil => intro _; left; exact ⟨rfl, by simp⟩
  | cons q rest ih =>
    intro hd
    obtain ⟨pid, v⟩ := q
    obtain ⟨d, hv⟩ := hd (pid, v) (List.mem_cons_self _ _)
    simp only at hv
    subst hv
    by_cases hm : pyEq ((lookupKey "n" d).getD Val.vnull) name = true
    · right
      refine ⟨(pid, Val.vdict d), List.mem_cons_self _ _, ?_, ?_⟩
      · simpa [entryNameMatches] using hm
      · simp [findMatch, valGetN, hm]
    · have hfm : findMatch name ((pid, Val.vdict d) :: rest) = findMatch name rest := by
        simp [findMatch, valGetN, hm]
      rcases ih (fun p hp => hd p (List.mem_cons_of_mem _ hp)) with ⟨h1, h2⟩ | ⟨p, hp, h1, h2⟩
      · left
        refine ⟨by rw [hfm, h1], ?_⟩
        intro p hp
        rcases List.mem_cons.1 hp with rfl | hp
        · simpa [entryNameMatches] using hm
        · exact h2 p hp
      · right
        exact ⟨p, List.mem_cons_of_mem _ hp, h1, by rw [hfm, h2]⟩

/-- C7: for a preset-by-name directive (not dry-run) against a catalog of
dict entries with non-empty numeric id keys: if some entry's name field
equals the requested name, the write body `{"ps": <matched id>, "on": true}`
is issued to the device (and the call succeeds exactly on a 2xx response);
if no entry matches, the call returns failure and no write is issued. -/
theorem preset_by_name_write_iff_catalog_match (env : DeviceResponses)
    (cat : List (String × Val)) (name : Val)
    (hcat : env.presetsCatalog = Except.ok cat)
    (hdict : ∀ p ∈ cat, ∃ d, (p : String × Val).2 = Val.vdict d)
    (hkeys : ∀ p ∈ cat, (p : String × Val).1 ≠ "" ∧ (pyInt (p : String × Val).1).isSome) :
    ((∃ p ∈ cat, entryNameMatches name p = true) →
      ∃ p ∈ cat, entryNameMatches name p = true ∧ ∃ n, pyInt (p : String × Val).1 = some n ∧
        applyPresetByName name false env = ([presetPayload n], is2xx env.postStatus)) ∧
    ((∀ p ∈ cat, entryNameMatches name p = false) →
      applyPresetByName name false env = ([], false)) := by
  rcases findMatch_spec name cat hdict with ⟨hfm, hall⟩ | ⟨p, hp, hm, hfm⟩
  · constructor
    · rintro ⟨p, hp, hm⟩
      exact absurd (hall p hp) (by rw [hm]; simp)
    · intro _
      simp [applyPresetByName, hcat, hfm]
  · constructor
    · intro _
      obtain ⟨hne, hsome⟩ := hkeys p hp
      obtain ⟨n, hn⟩ := Option.isSome_iff_exists.1 hsome
      refine ⟨p, hp, hm, n, hn, ?_⟩
      simp [applyPresetByName, hcat, hfm, hne, hn]
    · intro hall
      exact absurd (hall p hp) (by rw [hm]; simp)

/-- Witness for C7: catalog `{"3": {"n": "Foo"}}`, requested name `"Foo"`,
device answering 200: the matched entry is `"3"` and the write
`{"ps": 3, "on": true}` is issued. -/
theorem preset_by_name_write_iff_catalog_match_witness :
    (DeviceResponses.mk (Except.ok 200)
        (Except.ok [("3", Val.vdict [("n", Val.vstr "Foo")])])).presetsCatalog =
      Except.ok [("3", Val.vdict [("n", Val.vstr "Foo")])] ∧
    (∀ p ∈ [("3", Val.vdict [("n", Val.vstr "Foo")])],
      ∃ d, (p : String × Val).2 = Val.vdict d) ∧
    (∀ p ∈ [("3", Val.vdict [("n", Val.vstr "Foo")])],
      (p : String × Val).1 ≠ "" ∧ (pyInt (p : String × Val).1).isSome) ∧
    (∃ p ∈ [("3", Val.vdict [("n", Val.vstr "Foo")])],
      entryNameMatches (Val.vstr "Foo") p = true ∧
        ∃ n, pyInt (p : String × Val).1 = some n ∧
          applyPresetByName (Val.vstr "Foo") false
              (DeviceResponses.mk (Except.ok 200)
                (Except.ok [("3", Val.vdict [("n", Val.vstr "Foo")])])) =
            ([presetPayload n],
              is2xx (DeviceResponses.mk (Except.ok 200)
                (Except.ok [("3", Val.vdict [("n", Val.vstr "Foo")])])).postStatus)) := by
  have hdict : ∀ p ∈ [("3", Val.vdict [("n", Val.vstr "Foo")])],
      ∃ d, (p : String × Val).2 = Val.vdict d := by
    intro p hp
    rw [List.mem_singleton] at hp
    subst hp
    exact ⟨_, rfl⟩
  have hkeys : ∀ p ∈ [("3", Val.vdict [("n", Val.vstr "Foo")])],
      (p : String × Val).1 ≠ "" ∧ (pyInt (p : String × Val).1).isSome := by
    intro p hp
    rw [List.mem_singleton] at hp
    subst hp
    exact ⟨by decide, by decide⟩
  refine ⟨rfl, hdict, hkeys, ?_⟩
  apply (preset_by_name_write_iff_catalog_match
      (DeviceResponses.mk (Except.ok 200)
        (Except.ok [("3", Val.vdict [("n", Val.vstr "Foo")])]))
      [("3", Val.vdict [("n", Val.vstr "Foo")])] (Val.vstr "Foo") rfl hdict hkeys).1
  refine ⟨("3", Val.vdict [("n", Val.vstr "Foo")]), List.mem_singleton.2 rfl, ?_⟩
  rfl

/-- C8: `apply_scene` always returns a boolean (every exception path in the
device call is caught inside, reflected by the total model), and the result
is `true` exactly when the call is a dry-run or when a write was issued and
its HTTP response status lies in [200, 300); any non-2xx status, connection
error or timeout (and any failed name lookup, which issues no write) yields
`false`. -/
theorem apply_scene_true_iff_dry_or_2xx (scene : List (String × Val))
    (dr : Bool) (env : DeviceResponses) :
    (applyScene scene dr env).2 = true ↔
      (dr = true ∨ ((applyScene scene dr env).1 ≠ [] ∧ is2xx env.postStatus = true)) := by
  rcases h1 : lookupKey "preset" scene with _ | v
  · rcases h2 : lookupKey "preset_name" scene with _ | nm
    · cases dr <;> simp [applyScene, h1, h2]
    · cases dr
      · rcases h3 : env.presetsCatalog with e | data
        · simp [applyScene, h1, h2, applyPresetByName, h3]
        · rcases h4 : findMatch nm data with e | om
          · simp [applyScene, h1, h2, applyPresetByName, h3, h4]
          · rcases om with _ | pid
            · simp [applyScene, h1, h2, applyPresetByName, h3, h4]
            · by_cases h5 : pid = ""
              · simp [applyScene, h1, h2, applyPresetByName, h3, h4, h5]
              · rcases h6 : pyInt pid with _ | n
                · simp [applyScene, h1, h2, applyPresetByName, h3, h4, h5, h6]
                · simp [applyScene, h1, h2, applyPresetByName, h3, h4, h5, h6]
      · simp [applyScene, h1, h2, applyPresetByName]
  · cases dr <;> simp [applyScene, h1]

end WledSync
